import Mathlib

/-!
Shallow embedding of the `nodejs-workflow-library` transition engine
(`src/workflow/workflowManager.ts` and its direct collaborators:
`state.ts`, `transition.ts`, `storage/MemoryStorage.ts`,
`monitoring.ts`, `api/webhook.ts`, `errorHandling.ts`, `eventManager.ts`).

Modelling conventions:
* A `State` object is a `StateObj` record; the JavaScript object aliasing
  (`currentState` points into the `states` array) is captured by storing
  `currentState` and `previousState` as indices into the `states` list.
* A `Transition` guard is a closure `() => boolean` in the source; for a
  single evaluation point it is a `Bool` recorded on the edge.
* `MemoryStorage` and the `ConfigManager` map are association lists; the
  networked backends (Mongo, Redis) are external collaborators and the
  workflow under verification uses the memory backend.
* `setTimeout` / `clearTimeout` are modelled by an explicit set of armed
  runtime timers (`pending`, keyed by a fresh numeric id) next to the
  manager's own `timers` name-to-id map; a timer firing is an explicit
  `fireTimer id` event delivered by the runtime.
* Side effects that only observe the workflow (monitor logging, webhook
  delivery, event triggering, `ErrorHandler.handleError`) are recorded in
  an observation log (newest entry first).
* A thrown exception escaping a method is the `some e` component of the
  returned pair; `transitionTo`'s `try/catch` is modelled explicitly.
-/

/-- `State` from `src/workflow/state.ts` (file not present under `src/`).
Modelled from the spec: a State is `{ name: string, isActive: bool }`. -/
structure StateObj where
  name : String
  isActive : Bool
deriving Repr, DecidableEq

/-- `Transition` from `src/workflow/transition.ts`: `{from, to, condition}`;
`canTransition()` returns `condition()`, recorded here as the `condition`
field's boolean value at evaluation time. -/
structure TransitionObj where
  from_ : String
  to_ : String
  condition : Bool
deriving Repr, DecidableEq

/-- Observable side effects of the engine, newest first in the log. -/
inductive Obs where
  /-- `WorkflowMonitor.logStateChange(from, to)` -/
  | stateChange (from_ to_ : String)
  /-- `Webhook.send(url, {from, to})` on a state change -/
  | webhook (from_ to_ : String)
  /-- `EventManager.trigger(name)` together with `logEventTrigger` -/
  | eventTriggered (name : String)
  /-- `Webhook.send(url, {event})` inside `triggerEvent` -/
  | webhookEvent (name : String)
  /-- `ErrorHandler.handleError(error)` with the error's message -/
  | handledError (msg : String)
deriving Repr, DecidableEq

/-- An exception escaping a method: `WorkflowError` from
`src/workflow/errorHandling.ts`, or a JavaScript `TypeError` (the
`currentState!` null assertion in `rollback`). -/
inductive WfError where
  | workflowError (msg : String)
  | typeError (msg : String)
deriving Repr, DecidableEq

/-- The message carried by an error (`error.message`). -/
def errMsg : WfError → String
  | .workflowError m => m
  | .typeError m => m

/-- One armed `setTimeout` in the JavaScript runtime: created by
`setTimer`, destroyed by firing or by `clearTimeout`. -/
structure PendingTimer where
  id : Nat
  target : String
  delay : Nat
deriving Repr, DecidableEq

/-- Association-list lookup, the shape of a JavaScript object used as a
map (`MemoryStorage.storage`, `ConfigManager.config`, `timers`). -/
def aget {α : Type} [BEq α] {β : Type} : List (α × β) → α → Option β
  | [], _ => none
  | (k, v) :: rest, key => if k == key then some v else aget rest key

/-- Association-list update: `obj[key] = value` (replace or append). -/
def aset {α : Type} [BEq α] {β : Type} : List (α × β) → α → β → List (α × β)
  | [], key, val => [(key, val)]
  | (k, v) :: rest, key, val =>
      if k == key then (k, val) :: rest else (k, v) :: aset rest key val

/-- Association-list removal: `delete obj[key]`. -/
def aerase {α : Type} [BEq α] {β : Type} : List (α × β) → α → List (α × β)
  | [], _ => []
  | (k, v) :: rest, key =>
      if k == key then aerase rest key else (k, v) :: aerase rest key

/-- `WorkflowManager`'s mutable fields, plus the runtime timer set and the
observation log. -/
structure WM where
  states : List StateObj
  transitions : List TransitionObj
  currentState : Option Nat
  previousState : Option Nat
  /-- `MemoryStorage.storage` of the manager's `storage` backend. -/
  storage : List (String × String)
  /-- `this.timers`: state name to the stored timer id. -/
  timers : List (String × Nat)
  /-- Armed, not-yet-fired `setTimeout` timers in the runtime. -/
  pending : List PendingTimer
  nextTimerId : Nat
  /-- `ConfigManager.config` entries relevant to the engine. -/
  config : List (String × String)
  log : List Obs
deriving Repr, DecidableEq

/-- Set the `isActive` flag of the state object at index `i`
(`state.isActive = b` through an aliased pointer). -/
def setActive : List StateObj → Nat → Bool → List StateObj
  | [], _, _ => []
  | st :: rest, 0, b => { st with isActive := b } :: rest
  | st :: rest, i + 1, b => st :: setActive rest i b

/-- `this.states.find(state => state.name === n)` as an index. -/
def findStateIdx : List StateObj → String → Option Nat
  | [], _ => none
  | st :: rest, n =>
      if st.name == n then some 0 else (findStateIdx rest n).map (· + 1)

/-- `this.transitions.find(t => t.from === cur && t.to === target)`;
`cur` is `this.currentState?.name`, `undefined` matching nothing. -/
def findEdge : List TransitionObj → Option String → String → Option TransitionObj
  | [], _, _ => none
  | t :: rest, cur, target =>
      if cur == some t.from_ && t.to_ == target then some t
      else findEdge rest cur target

/-- `this.currentState?.name`. -/
def currentName (wm : WM) : Option String :=
  match wm.currentState with
  | some i => (wm.states[i]?).map (·.name)
  | none => none

/-- Name of the state object at index `j`. -/
def stateNameAt (l : List StateObj) (j : Nat) : String :=
  match l[j]? with
  | some st => st.name
  | none => ""

/-- `!!this.config.get('webhookUrl')`: set and non-empty (JS truthiness).
The configuration is never written during a transition, so the check is a
function of the `config` map alone. -/
def webhookOn (config : List (String × String)) : Bool :=
  match aget config "webhookUrl" with
  | some u => u != ""
  | none => false

/-- `saveState(stateName)` on the memory backend:
`this.storage.set('currentState', stateName)`. -/
def saveState (wm : WM) (stateName : String) : WM :=
  { wm with storage := aset wm.storage "currentState" stateName }

/-- The log entries appended by `triggerEvent(name)`: fire listeners, log
the trigger, and send the event webhook when one is configured. -/
def triggerEventLog (config : List (String × String)) (name : String)
    (log : List Obs) : List Obs :=
  let l1 := Obs.eventTriggered name :: log
  if webhookOn config then Obs.webhookEvent name :: l1 else l1

/-- `triggerEvent(name)`: only the observation log changes. -/
def triggerEvent (wm : WM) (name : String) : WM :=
  { wm with log := triggerEventLog wm.config name wm.log }

/-- The log entries appended by the notification tail shared by the
immediate apply path and the timer callback:
`WorkflowMonitor.logStateChange(a, b)`, then
`if (webhookUrl) Webhook.send(webhookUrl, {from: a, to: b})`, then
`triggerEvent('transitionTo' + b)`. -/
def notifyLog (config : List (String × String)) (a b : String)
    (log : List Obs) : List Obs :=
  let l1 := Obs.stateChange a b :: log
  let l2 := if webhookOn config then Obs.webhook a b :: l1 else l1
  triggerEventLog config ("transitionTo" ++ b) l2

/-- `addState(state)`: push; the first state added while `currentState`
is null becomes current, is activated, and its name is persisted. -/
def addState (wm : WM) (s : StateObj) : WM :=
  match wm.currentState with
  | some _ => { wm with states := wm.states ++ [s] }
  | none =>
      { wm with
          states := wm.states ++ [{ s with isActive := true }],
          currentState := some wm.states.length,
          storage := aset wm.storage "currentState" s.name }

/-- `addTransition(transition)`. -/
def addTransition (wm : WM) (t : TransitionObj) : WM :=
  { wm with transitions := wm.transitions ++ [t] }

/-- `rollback()`: requires a previous state, else throws
`WorkflowError('No previous state to rollback to')`; on success it
deactivates the current state, reactivates and re-points to the previous
one, clears `previousState`, and logs with the synthetic label
`'rollback'`.  It touches neither the storage backend nor the
transitions. -/
def rollback (wm : WM) : WM × Option WfError :=
  match wm.previousState with
  | none => (wm, some (.workflowError "No previous state to rollback to"))
  | some j =>
      match wm.currentState with
      | none => (wm, some (.typeError "Cannot set properties of null"))
      | some i =>
          let states2 := setActive (setActive wm.states i false) j true
          ({ wm with
               states := states2,
               currentState := some j,
               previousState := none,
               log := Obs.stateChange "rollback" (stateNameAt states2 j) :: wm.log },
           none)

/-- `setTimer(stateName, delay)`: arm a fresh `setTimeout` and overwrite
the `timers` map entry for `stateName` with the new id.  The previously
stored timer, if any, is not cancelled. -/
def setTimer (wm : WM) (stateName : String) (delay : Nat) : WM :=
  { wm with
      pending := wm.pending ++ [⟨wm.nextTimerId, stateName, delay⟩],
      timers := aset wm.timers stateName wm.nextTimerId,
      nextTimerId := wm.nextTimerId + 1 }

/-- `clearTimer(stateName)`: when the map holds a timer for that name,
`clearTimeout` it and delete the map entry; otherwise do nothing. -/
def clearTimer (wm : WM) (stateName : String) : WM :=
  match aget wm.timers stateName with
  | some id =>
      { wm with
          pending := wm.pending.filter (fun q => q.id != id),
          timers := aerase wm.timers stateName }
  | none => wm

/-- The notification tail shared by the immediate apply path and the
timer callback: `logStateChange`, optional webhook, `triggerEvent`;
only the observation log changes. -/
def notifyApplied (wm : WM) (oldName target : String) : WM :=
  { wm with log := notifyLog wm.config oldName target wm.log }

/-- `this.currentState.isActive = false` guarded by the null check. -/
def deactivateCurrent (wm : WM) : WM :=
  match wm.currentState with
  | some i => { wm with states := setActive wm.states i false }
  | none => wm

/-- The `delay == 0` tail of `transitionTo`: resolve the target by name;
when found, record `previousState`, activate and re-point, persist; in
both cases log, webhook and trigger the synthetic event. -/
def applyImmediate (wm : WM) (oldName target : String) : WM :=
  match findStateIdx wm.states target with
  | some j =>
      notifyApplied
        (saveState
          { wm with
              previousState := wm.currentState,
              states := setActive wm.states j true,
              currentState := some j }
          target)
        oldName target
  | none => notifyApplied wm oldName target

/-- The `try` block of `transitionTo(stateName, delay)`. -/
def transTryBody (wm : WM) (target : String) (delay : Nat) : WM × Option WfError :=
  match findEdge wm.transitions (currentName wm) target with
  | some t =>
      if t.condition then
        let oldName := (currentName wm).getD "none"
        let wm1 := deactivateCurrent wm
        if delay > 0 then (setTimer wm1 target delay, none)
        else (applyImmediate wm1 oldName target, none)
      else (wm, some (.workflowError ("Cannot transition to state: " ++ target)))
  | none => (wm, some (.workflowError ("Cannot transition to state: " ++ target)))

/-- `transitionTo(stateName, delay = 0)`: run the `try` block; on a throw,
`ErrorHandler.handleError` records the error and `rollback()` runs, whose
own failure escapes to the caller. -/
def transitionTo (wm : WM) (target : String) (delay : Nat) : WM × Option WfError :=
  match transTryBody wm target delay with
  | (wm1, none) => (wm1, none)
  | (wm1, some e) =>
      rollback { wm1 with log := Obs.handledError (errMsg e) :: wm1.log }

/-- The `setTimeout` callback armed by `setTimer`, delivered by the
runtime for timer `id`: if still armed, disarm it and re-resolve the
captured target name; when found, activate it, re-point `currentState`,
persist, and notify with the synthetic label `'timed transition'`.
`previousState` is not touched and no state is deactivated. -/
def fireTimer (wm : WM) (id : Nat) : WM :=
  match wm.pending.find? (fun p => p.id == id) with
  | none => wm
  | some p =>
      let wm1 := { wm with pending := wm.pending.filter (fun q => q.id != id) }
      match findStateIdx wm1.states p.target with
      | none => wm1
      | some j =>
          notifyApplied
            (saveState
              { wm1 with
                  states := setActive wm1.states j true,
                  currentState := some j }
              p.target)
            "timed transition" p.target

/-- `loadState()` on the memory backend: read `'currentState'`; a present,
non-empty name that resolves to a state activates it and re-points
`currentState` (without deactivating the old current state). -/
def loadState (wm : WM) : WM :=
  match aget wm.storage "currentState" with
  | some s =>
      if s == "" then wm
      else
        match findStateIdx wm.states s with
        | some j =>
            { wm with states := setActive wm.states j true, currentState := some j }
        | none => wm
  | none => wm

/-- `getVersion()`: `this.config.get('version')`. -/
def getVersion (wm : WM) : Option String :=
  aget wm.config "version"

/-- `setVersion(version)`: `this.config.set('version', version)`. -/
def setVersion (wm : WM) (v : String) : WM :=
  { wm with config := aset wm.config "version" v }

/-- `saveVersion(version)`: `setVersion` then persist under `'version'`
on the memory backend. -/
def saveVersion (wm : WM) (v : String) : WM :=
  let wm1 := setVersion wm v
  { wm1 with storage := aset wm1.storage "version" v }

/-- `loadVersion()` on the memory backend: read `'version'`; a present,
non-empty value is written back through `setVersion`. -/
def loadVersion (wm : WM) : WM :=
  match aget wm.storage "version" with
  | some v => if v == "" then wm else setVersion wm v
  | none => wm

/-- One externally triggerable operation on a manager, including the
runtime delivering a due timer. -/
inductive WfOp where
  | addState (s : StateObj)
  | addTransition (t : TransitionObj)
  | transitionTo (target : String) (delay : Nat)
  | rollback
  | loadState
  | fireTimer (id : Nat)
  | clearTimer (name : String)

/-- Execute one operation; an exception escaping the call leaves the
already-performed mutations in place, as in the source. -/
def runOp (wm : WM) : WfOp → WM
  | .addState s => addState wm s
  | .addTransition t => addTransition wm t
  | .transitionTo target delay => (transitionTo wm target delay).1
  | .rollback => (rollback wm).1
  | .loadState => loadState wm
  | .fireTimer id => fireTimer wm id
  | .clearTimer n => clearTimer wm n

/-- Execute a sequence of operations. -/
def runOps (wm : WM) (ops : List WfOp) : WM :=
  ops.foldl runOp wm

/-- A manager freshly constructed with the memory backend and no
webhook configured. -/
def initWM : WM :=
  { states := [], transitions := [], currentState := none,
    previousState := none, storage := [], timers := [], pending := [],
    nextTimerId := 0, config := [], log := [] }

/-- Number of states with `isActive = true`. -/
def activeCount (wm : WM) : Nat :=
  wm.states.countP (·.isActive)

/-- How many times the timed-transition fire path for `name` has run. -/
def firingCount (wm : WM) (name : String) : Nat :=
  wm.log.countP (fun o => o == Obs.stateChange "timed transition" name)

/-- How many errors `ErrorHandler.handleError` has been given. -/
def handledCount (wm : WM) : Nat :=
  wm.log.countP (fun o => match o with | .handledError _ => true | _ => false)

/-- Two states `a`, `b` with an always-true edge `a -> b`; `a` is current
and active (the bootstrap of `addState`). -/
def wmAB : WM :=
  runOps initWM
    [ .addState ⟨"a", false⟩, .addState ⟨"b", false⟩,
      .addTransition ⟨"a", "b", true⟩ ]

/-- `wmAB` after a successful immediate transition to `b`:
`currentState = b`, `previousState = a`, `'b'` persisted. -/
def wmAfterB : WM :=
  runOps initWM
    [ .addState ⟨"a", false⟩, .addState ⟨"b", false⟩,
      .addTransition ⟨"a", "b", true⟩, .transitionTo "b" 0 ]

/-- `wmAB` after scheduling a delayed transition to `b`: one armed timer
with id 0; used for the cancellation witness. -/
def wmTimer : WM :=
  runOps initWM
    [ .addState ⟨"a", false⟩, .addState ⟨"b", false⟩,
      .addTransition ⟨"a", "b", true⟩, .transitionTo "b" 500 ]

/-- The spec's three-state workflow in state `in_progress`, with the
always-true edge `in_progress -> completed` available. -/
def wmSpec3 : WM :=
  runOps initWM
    [ .addState ⟨"initial", false⟩, .addState ⟨"in_progress", false⟩,
      .addState ⟨"completed", false⟩,
      .addTransition ⟨"initial", "in_progress", true⟩,
      .addTransition ⟨"in_progress", "completed", true⟩,
      .transitionTo "in_progress" 0 ]

/-- The repository's own error-handling test scenario
(`test/workflow.test.ts`): states `initial`, `in_progress`, an edge to the
name `invalid_state` that matches no state, already in `in_progress`. -/
def wmC4 : WM :=
  runOps initWM
    [ .addState ⟨"initial", false⟩, .addState ⟨"in_progress", false⟩,
      .addTransition ⟨"initial", "in_progress", true⟩,
      .addTransition ⟨"in_progress", "invalid_state", true⟩,
      .transitionTo "in_progress" 0 ]

/-- The spec's false-guard scenario: fresh workflow in `initial`, edge
`initial -> in_progress` guarded by an always-false rule. -/
def wmC5 : WM :=
  runOps initWM
    [ .addState ⟨"initial", false⟩, .addState ⟨"in_progress", false⟩,
      .addTransition ⟨"initial", "in_progress", false⟩ ]

theorem aget_aset_self {α β : Type} [BEq α] [LawfulBEq α]
    (l : List (α × β)) (k : α) (v : β) : aget (aset l k v) k = some v := by
  induction l with
  | nil => simp [aset, aget]
  | cons p rest ih =>
      rcases p with ⟨k', v'⟩
      simp only [aset]
      cases hb : k' == k with
      | true => simp [aget, hb]
      | false => simp [aget, hb, ih]

theorem aget_aerase_self {α β : Type} [BEq α]
    (l : List (α × β)) (k : α) : aget (aerase l k) k = none := by
  induction l with
  | nil => rfl
  | cons p rest ih =>
      rcases p with ⟨k', v'⟩
      simp only [aerase]
      cases hb : k' == k with
      | true => simpa [hb] using ih
      | false => simp [aget, hb, ih]

theorem setActive_length (l : List StateObj) (i : Nat) (b : Bool) :
    (setActive l i b).length = l.length := by
  induction l generalizing i with
  | nil => rfl
  | cons st rest ih =>
      cases i with
      | zero => rfl
      | succ i => simp [setActive, ih]

theorem findStateIdx_setActive (l : List StateObj) (i : Nat) (b : Bool)
    (n : String) : findStateIdx (setActive l i b) n = findStateIdx l n := by
  induction l generalizing i with
  | nil => rfl
  | cons st rest ih =>
      cases i with
      | zero => simp [setActive, findStateIdx]
      | succ i => simp [setActive, findStateIdx, ih]

theorem stateNameAt_setActive (l : List StateObj) (i : Nat) (b : Bool)
    (j : Nat) : stateNameAt (setActive l i b) j = stateNameAt l j := by
  induction l generalizing i j with
  | nil => rfl
  | cons st rest ih =>
      cases i with
      | zero => cases j with
        | zero => simp [setActive, stateNameAt]
        | succ j => simp [setActive, stateNameAt]
      | succ i => cases j with
        | zero => simp [setActive, stateNameAt]
        | succ j => simpa [setActive, stateNameAt] using ih i j

theorem findStateIdx_lt (l : List StateObj) (n : String) (j : Nat)
    (h : findStateIdx l n = some j) : j < l.length := by
  induction l generalizing j with
  | nil => simp [findStateIdx] at h
  | cons st rest ih =>
      simp only [findStateIdx] at h
      cases hb : st.name == n with
      | true =>
          simp [hb] at h
          subst h
          exact Nat.succ_pos _
      | false =>
          simp [hb] at h
          rcases h with ⟨j', hj', rfl⟩
          have := ih j' hj'
          simp only [List.length_cons]
          omega

theorem countP_setActive_false (l : List StateObj) (i : Nat)
    (hi : i < l.length) (h : (l.get ⟨i, hi⟩).isActive = true) :
    (setActive l i false).countP (·.isActive) = l.countP (·.isActive) - 1 := by
  induction l generalizing i with
  | nil => simp at hi
  | cons st rest ih =>
      cases i with
      | zero =>
          simp only [List.get] at h
          simp [setActive, List.countP_cons, h]
      | succ i =>
          simp only [List.length_cons, Nat.succ_lt_succ_iff] at hi
          simp only [List.get] at h
          have hpos : 0 < rest.countP (·.isActive) := by
            rw [List.countP_pos_iff]
            exact ⟨rest.get ⟨i, hi⟩, List.get_mem rest i hi, h⟩
          simp only [setActive, List.countP_cons, ih i hi h]
          omega

theorem countP_setActive_true (l : List StateObj) (i : Nat)
    (hi : i < l.length) (h : (l.get ⟨i, hi⟩).isActive = false) :
    (setActive l i true).countP (·.isActive) = l.countP (·.isActive) + 1 := by
  induction l generalizing i with
  | nil => simp at hi
  | cons st rest ih =>
      cases i with
      | zero =>
          simp only [List.get] at h
          simp [setActive, List.countP_cons, h]
      | succ i =>
          simp only [List.length_cons, Nat.succ_lt_succ_iff] at hi
          simp only [List.get] at h
          simp only [setActive, List.countP_cons, ih i hi h]
          omega

theorem notifyLog_mem_stateChange (config : List (String × String))
    (a b : String) (log : List Obs) :
    Obs.stateChange a b ∈ notifyLog config a b log := by
  unfold notifyLog triggerEventLog
  cases h : webhookOn config <;> simp [h]

theorem findPending_append_fresh (l : List PendingTimer) (p : PendingTimer)
    (h : ∀ q ∈ l, q.id ≠ p.id) :
    (l ++ [p]).find? (fun q => q.id == p.id) = some p := by
  induction l with
  | nil => simp [List.find?]
  | cons q rest ih =>
      have hq : (q.id == p.id) = false := by
        simpa using h q (List.mem_cons_self _ _)
      simp only [List.cons_append, List.find?, hq]
      exact ih (fun r hr => h r (List.mem_cons_of_mem _ hr))

theorem filterPending_append_fresh (l : List PendingTimer) (p : PendingTimer)
    (h : ∀ q ∈ l, q.id ≠ p.id) :
    (l ++ [p]).filter (fun q => q.id != p.id) = l := by
  induction l with
  | nil => simp [List.filter]
  | cons q rest ih =>
      have hq : (q.id != p.id) = true := by
        simpa using h q (List.mem_cons_self _ _)
      simp only [List.cons_append, List.filter, hq]
      exact congrArg (List.cons q) (ih (fun r hr => h r (List.mem_cons_of_mem _ hr)))

/-- C8: for every target name and timer-map state, cancelling twice has
the same effect as cancelling once, and cancelling a name with no pending
timer is a no-op rather than an error. -/
theorem C8_cancel_idempotent (wm : WM) (name : String) :
    clearTimer (clearTimer wm name) name = clearTimer wm name ∧
    (aget wm.timers name = none → clearTimer wm name = wm) := by
  refine ⟨?_, fun h => by simp [clearTimer, h]⟩
  cases h : aget wm.timers name with
  | none =>
      have hE : clearTimer wm name = wm := by simp [clearTimer, h]
      rw [hE]
      exact hE
  | some id =>
      have h2 : aget (clearTimer wm name).timers name = none := by
        simp only [clearTimer, h]
        exact aget_aerase_self _ _
      generalize hW : clearTimer wm name = W at h2 ⊢
      simp [clearTimer, h2]

/-- Concrete instance of the C8 theorem on a manager with one armed timer. -/
theorem C8_witness :
    clearTimer (clearTimer wmTimer "b") "b" = clearTimer wmTimer "b" ∧
    clearTimer wmTimer "completed" = wmTimer :=
  ⟨(C8_cancel_idempotent wmTimer "b").1,
   (C8_cancel_idempotent wmTimer "completed").2 (by decide)⟩

/-- C9: on the memory backend, `saveVersion(v)` followed by
`loadVersion()` yields `v`: `getVersion()` returns `v` afterwards. -/
theorem C9_version_roundtrip (wm : WM) (v : String) :
    getVersion (loadVersion (saveVersion wm v)) = some v := by
  unfold saveVersion loadVersion
  dsimp only
  rw [aget_aset_self]
  by_cases hv : v = "" <;>
    simp [getVersion, setVersion, hv, aget_aset_self]

/-- C7: with a previous and a current state, `rollback()` succeeds and
clears `previousState`; a second immediate `rollback()` fails with the
`No previous state to rollback to` error, which escapes uncaught and
leaves the manager unchanged. -/
theorem C7_rollback_once (wm : WM) (i j : Nat)
    (hprev : wm.previousState = some j) (hcur : wm.currentState = some i) :
    (rollback wm).2 = none ∧
    (rollback wm).1.previousState = none ∧
    (rollback (rollback wm).1).2 =
      some (WfError.workflowError "No previous state to rollback to") ∧
    (rollback (rollback wm).1).1 = (rollback wm).1 := by
  have hnone : ∀ w : WM, w.previousState = none →
      rollback w = (w, some (.workflowError "No previous state to rollback to")) := by
    intro w hw
    simp [rollback, hw]
  have h1 : (rollback wm).2 = none ∧ (rollback wm).1.previousState = none := by
    simp [rollback, hprev, hcur]
  have h2 := hnone (rollback wm).1 h1.2
  exact ⟨h1.1, h1.2, by rw [h2], by rw [h2]⟩

/-- Concrete instance of the C7 theorem after a successful transition. -/
theorem C7_witness :
    (rollback wmAfterB).2 = none ∧
    (rollback wmAfterB).1.previousState = none ∧
    (rollback (rollback wmAfterB).1).2 =
      some (WfError.workflowError "No previous state to rollback to") :=
  ⟨(C7_rollback_once wmAfterB 1 0 rfl rfl).1,
   (C7_rollback_once wmAfterB 1 0 rfl rfl).2.1,
   (C7_rollback_once wmAfterB 1 0 rfl rfl).2.2.1⟩

/-- C10: the first `addState` on a manager with no current state makes the
new state current and active and persists its name; any later `addState`
only appends, leaving everything else (current pointer, the new state's
flag, storage) unchanged. -/
theorem C10_addState (wm : WM) (s : StateObj) :
    (wm.currentState = none →
      addState wm s =
        { wm with
            states := wm.states ++ [{ s with isActive := true }],
            currentState := some wm.states.length,
            storage := aset wm.storage "currentState" s.name }) ∧
    (wm.currentState = none →
      aget (addState wm s).storage "currentState" = some s.name) ∧
    (∀ i, wm.currentState = some i →
      addState wm s = { wm with states := wm.states ++ [s] }) := by
  refine ⟨fun h => by simp [addState, h], fun h => ?_, fun i h => by simp [addState, h]⟩
  simp [addState, h]
  exact aget_aset_self _ _ _

/-- Concrete instances of both branches of the C10 theorem. -/
theorem C10_witness :
    addState initWM ⟨"a", false⟩ =
      { initWM with
          states := [⟨"a", true⟩],
          currentState := some 0,
          storage := [("currentState", "a")] } ∧
    addState wmAfterB ⟨"c", false⟩ =
      { wmAfterB with states := wmAfterB.states ++ [⟨"c", false⟩] } :=
  ⟨(C10_addState initWM ⟨"a", false⟩).1 rfl,
   (C10_addState wmAfterB ⟨"c", false⟩).2.2 1 rfl⟩

/-- C3 (amended): `rollback()` with a previous state deactivates the
current state, reactivates the previous one and re-points to it, clears
`previousState`, and logs a notification whose synthetic `from` label is
the literal `'rollback'`; it consults no guards (the transitions list is
irrelevant to its result) and it does NOT persist the restored name (the
storage is untouched). -/
theorem C3_rollback_behavior (wm : WM) (i j : Nat)
    (hprev : wm.previousState = some j) (hcur : wm.currentState = some i) :
    (rollback wm).2 = none ∧
    (rollback wm).1.states = setActive (setActive wm.states i false) j true ∧
    (rollback wm).1.currentState = some j ∧
    (rollback wm).1.previousState = none ∧
    (rollback wm).1.log =
      Obs.stateChange "rollback" (stateNameAt wm.states j) :: wm.log ∧
    (rollback wm).1.storage = wm.storage ∧
    (∀ ts, rollback { wm with transitions := ts } =
      ({ (rollback wm).1 with transitions := ts }, (rollback wm).2)) := by
  refine ⟨?_, ?_, ?_, ?_, ?_, ?_, fun ts => ?_⟩ <;>
    simp [rollback, hprev, hcur, stateNameAt_setActive]

/-- Concrete instance of the amended C3 theorem. -/
theorem C3_witness :
    (rollback wmAfterB).2 = none ∧
    (rollback wmAfterB).1.currentState = some 0 ∧
    (rollback wmAfterB).1.previousState = none ∧
    (rollback wmAfterB).1.log =
      Obs.stateChange "rollback" "a" :: wmAfterB.log ∧
    (rollback wmAfterB).1.storage = wmAfterB.storage :=
  ⟨(C3_rollback_behavior wmAfterB 1 0 rfl rfl).1,
   (C3_rollback_behavior wmAfterB 1 0 rfl rfl).2.2.1,
   (C3_rollback_behavior wmAfterB 1 0 rfl rfl).2.2.2.1,
   (C3_rollback_behavior wmAfterB 1 0 rfl rfl).2.2.2.2.1,
   (C3_rollback_behavior wmAfterB 1 0 rfl rfl).2.2.2.2.2.1⟩

/-- C3 counterexample to the persistence part of the claim: after a
rollback that restores `a`, the storage still holds `'b'`, the name
persisted by the preceding transition, not the restored name. -/
theorem C3_cex :
    currentName (rollback wmAfterB).1 = some "a" ∧
    aget (rollback wmAfterB).1.storage "currentState" = some "b" := by
  decide

/-- C5 (amended): with no matching edge, or a matching edge whose guard
is false, `transitionTo` raises `InvalidTransition` internally (the
`Cannot transition to state` error is reported to the error handler), the
state graph and the current pointer are untouched, and the subsequent
rollback attempt — here with no previous state — propagates the
`No previous state to rollback to` error to the caller instead. -/
theorem C5_guard_failure (wm : WM) (target : String)
    (hfail : findEdge wm.transitions (currentName wm) target = none ∨
      ∃ t, findEdge wm.transitions (currentName wm) target = some t ∧
        t.condition = false)
    (hprev : wm.previousState = none) :
    (transitionTo wm target 0).2 =
      some (WfError.workflowError "No previous state to rollback to") ∧
    (transitionTo wm target 0).1.states = wm.states ∧
    (transitionTo wm target 0).1.currentState = wm.currentState ∧
    (transitionTo wm target 0).1.log =
      Obs.handledError ("Cannot transition to state: " ++ target) :: wm.log := by
  have hbody : transTryBody wm target 0 =
      (wm, some (.workflowError ("Cannot transition to state: " ++ target))) := by
    rcases hfail with h | ⟨t, ht, hc⟩
    · simp [transTryBody, h]
    · simp [transTryBody, ht, hc]
  unfold transitionTo
  rw [hbody]
  simp [rollback, hprev, errMsg]

/-- Concrete instance of the amended C5 theorem on the spec scenario. -/
theorem C5_witness :
    (transitionTo wmC5 "in_progress" 0).2 =
      some (WfError.workflowError "No previous state to rollback to") ∧
    (transitionTo wmC5 "in_progress" 0).1.currentState = wmC5.currentState ∧
    (transitionTo wmC5 "in_progress" 0).1.log =
      Obs.handledError "Cannot transition to state: in_progress" :: wmC5.log :=
  ⟨(C5_guard_failure wmC5 "in_progress"
      (Or.inr ⟨⟨"initial", "in_progress", false⟩, by decide, rfl⟩) rfl).1,
   (C5_guard_failure wmC5 "in_progress"
      (Or.inr ⟨⟨"initial", "in_progress", false⟩, by decide, rfl⟩) rfl).2.2.1,
   (C5_guard_failure wmC5 "in_progress"
      (Or.inr ⟨⟨"initial", "in_progress", false⟩, by decide, rfl⟩) rfl).2.2.2⟩

/-- C5 counterexample to the claim as stated: in the spec's false-guard
scenario the state indeed stays `initial`, but the error the call raises
to its caller is `No previous state to rollback to`, not the
`InvalidTransition` error (which is caught and handled internally). -/
theorem C5_cex :
    currentName (transitionTo wmC5 "in_progress" 0).1 = some "initial" ∧
    (transitionTo wmC5 "in_progress" 0).2 =
      some (WfError.workflowError "No previous state to rollback to") ∧
    (transitionTo wmC5 "in_progress" 0).2 ≠
      some (WfError.workflowError "Cannot transition to state: in_progress") := by
  decide

/-- C6 (amended): a delayed `transitionTo` with a passing guard returns
immediately with no escaping error, the current pointer, `previousState`
and the storage untouched — but the prior state is deactivated already at
schedule time.  When the armed timer fires, the target is re-resolved by
name, activated, made current and persisted, and a `'timed transition'`
notification is emitted; the then-current state is NOT deactivated at
fire time and is NOT recorded as `previousState`. -/
theorem C6_delayed_transition (wm : WM) (i j : Nat) (t : TransitionObj)
    (target : String) (d : Nat)
    (hcur : wm.currentState = some i)
    (hfind : findEdge wm.transitions (currentName wm) target = some t)
    (hcond : t.condition = true)
    (hd : 0 < d)
    (hj : findStateIdx wm.states target = some j)
    (hfresh : ∀ q ∈ wm.pending, q.id ≠ wm.nextTimerId) :
    (transitionTo wm target d).2 = none ∧
    (transitionTo wm target d).1.currentState = wm.currentState ∧
    (transitionTo wm target d).1.previousState = wm.previousState ∧
    (transitionTo wm target d).1.storage = wm.storage ∧
    (transitionTo wm target d).1.states = setActive wm.states i false ∧
    (⟨wm.nextTimerId, target, d⟩ : PendingTimer) ∈
      (transitionTo wm target d).1.pending ∧
    (fireTimer (transitionTo wm target d).1 wm.nextTimerId).currentState =
      some j ∧
    (fireTimer (transitionTo wm target d).1 wm.nextTimerId).previousState =
      wm.previousState ∧
    aget (fireTimer (transitionTo wm target d).1 wm.nextTimerId).storage
      "currentState" = some target ∧
    (fireTimer (transitionTo wm target d).1 wm.nextTimerId).states =
      setActive (setActive wm.states i false) j true ∧
    Obs.stateChange "timed transition" target ∈
      (fireTimer (transitionTo wm target d).1 wm.nextTimerId).log := by
  have hdea : deactivateCurrent wm =
      { wm with states := setActive wm.states i false } := by
    simp [deactivateCurrent, hcur]
  have hbody : transTryBody wm target d =
      (setTimer { wm with states := setActive wm.states i false } target d,
       none) := by
    unfold transTryBody
    rw [hfind]
    simp [hcond, hd, hdea]
  have hr : transitionTo wm target d =
      (setTimer { wm with states := setActive wm.states i false } target d,
       none) := by
    unfold transitionTo
    rw [hbody]
  have hfind2 : (wm.pending ++ [(⟨wm.nextTimerId, target, d⟩ : PendingTimer)]).find?
      (fun q => q.id == wm.nextTimerId) = some ⟨wm.nextTimerId, target, d⟩ := by
    simpa using
      findPending_append_fresh wm.pending ⟨wm.nextTimerId, target, d⟩
        (by simpa using hfresh)
  have hfilt : (wm.pending ++ [(⟨wm.nextTimerId, target, d⟩ : PendingTimer)]).filter
      (fun q => q.id != wm.nextTimerId) = wm.pending := by
    simpa using
      filterPending_append_fresh wm.pending ⟨wm.nextTimerId, target, d⟩
        (by simpa using hfresh)
  have hjj : findStateIdx (setActive wm.states i false) target = some j := by
    rw [findStateIdx_setActive]
    exact hj
  refine ⟨?_, ?_, ?_, ?_, ?_, ?_, ?_, ?_, ?_, ?_, ?_⟩ <;>
    simp [hr, fireTimer, setTimer, hfind2, hfilt, hjj, notifyApplied,
      saveState, aget_aset_self, notifyLog_mem_stateChange]

/-- Concrete instance of the amended C6 theorem. -/
theorem C6_witness :
    (transitionTo wmAB "b" 1000).2 = none ∧
    (transitionTo wmAB "b" 1000).1.currentState = wmAB.currentState ∧
    (fireTimer (transitionTo wmAB "b" 1000).1 wmAB.nextTimerId).currentState =
      some 1 ∧
    aget (fireTimer (transitionTo wmAB "b" 1000).1 wmAB.nextTimerId).storage
      "currentState" = some "b" :=
  ⟨(C6_delayed_transition wmAB 0 1 ⟨"a", "b", true⟩ "b" 1000 rfl (by decide)
      rfl (by decide) (by decide) (by decide)).1,
   (C6_delayed_transition wmAB 0 1 ⟨"a", "b", true⟩ "b" 1000 rfl (by decide)
      rfl (by decide) (by decide) (by decide)).2.1,
   (C6_delayed_transition wmAB 0 1 ⟨"a", "b", true⟩ "b" 1000 rfl (by decide)
      rfl (by decide) (by decide) (by decide)).2.2.2.2.2.2.1,
   (C6_delayed_transition wmAB 0 1 ⟨"a", "b", true⟩ "b" 1000 rfl (by decide)
      rfl (by decide) (by decide) (by decide)).2.2.2.2.2.2.2.2.1⟩

/-- C6 counterexample to the `previousState` part of the claim: the state
current at schedule time (index 0) is never recorded as `previousState`
by the timer's fire action, which leaves it `none`. -/
theorem C6_cex :
    (transitionTo wmAB "b" 1000).1.currentState = some 0 ∧
    (fireTimer (transitionTo wmAB "b" 1000).1 0).currentState = some 1 ∧
    (fireTimer (transitionTo wmAB "b" 1000).1 0).previousState = none := by
  decide

/-- Deactivating the unique active index and then activating any valid
index restores an active-count of exactly one. -/
theorem countP_deactivate_activate (l : List StateObj) (i j : Nat)
    (hi : i < l.length) (hact : (l.get ⟨i, hi⟩).isActive = true)
    (hcount : l.countP (·.isActive) = 1) (hj : j < l.length) :
    (setActive (setActive l i false) j true).countP (·.isActive) = 1 := by
  have h0 : (setActive l i false).countP (·.isActive) = 0 := by
    rw [countP_setActive_false l i hi hact, hcount]
  have hjlen : j < (setActive l i false).length := by
    rw [setActive_length]
    exact hj
  have hjact : ((setActive l i false).get ⟨j, hjlen⟩).isActive = false := by
    have hall := List.countP_eq_zero.mp h0
    simpa using hall _ (List.get_mem (setActive l i false) j hjlen)
  rw [countP_setActive_true _ _ hjlen hjact, h0]

/-- C1 (amended): every immediate (`delay = 0`) `transitionTo` call in
which a passing guard implies the target name resolves preserves the
exactly-one-active invariant, provided the current pointer designates the
unique active state and any recorded `previousState` is a valid index:
the successful apply path moves the single active flag; a missing edge or
false guard with a previous state available rolls back to it; a missing
edge or false guard without one throws, mutating nothing.  (The genuinely
broken cases, excluded here, are a delayed call — zero active until the
timer fires, see the counterexample — and a passing guard whose target
resolves to no state.) -/
theorem C1_single_active_preserved (wm : WM) (i : Nat) (target : String)
    (hi : i < wm.states.length)
    (hcur : wm.currentState = some i)
    (hact : (wm.states.get ⟨i, hi⟩).isActive = true)
    (hcount : activeCount wm = 1)
    (hprevlen : ∀ k, wm.previousState = some k → k < wm.states.length)
    (hres : ∀ t, findEdge wm.transitions (currentName wm) target = some t →
      t.condition = true → findStateIdx wm.states target ≠ none) :
    activeCount (transitionTo wm target 0).1 = 1 := by
  have hcount2 : wm.states.countP (·.isActive) = 1 := by
    simpa [activeCount] using hcount
  have hfail : ∀ e, transTryBody wm target 0 = (wm, some e) →
      activeCount (transitionTo wm target 0).1 = 1 := by
    intro e hbody
    unfold transitionTo
    rw [hbody]
    cases hp : wm.previousState with
    | none => simpa [rollback, hp, activeCount] using hcount2
    | some k =>
        have hk := hprevlen k hp
        simp only [rollback, hp, hcur, activeCount]
        simpa using countP_deactivate_activate wm.states i k hi hact hcount2 hk
  cases hfe : findEdge wm.transitions (currentName wm) target with
  | none =>
      apply hfail (.workflowError ("Cannot transition to state: " ++ target))
      unfold transTryBody
      rw [hfe]
  | some t =>
      cases hc : t.condition with
      | false =>
          apply hfail (.workflowError ("Cannot transition to state: " ++ target))
          unfold transTryBody
          rw [hfe]
          simp [hc]
      | true =>
          cases hjo : findStateIdx wm.states target with
          | none => exact absurd hjo (hres t hfe hc)
          | some j =>
              have hdea : deactivateCurrent wm =
                  { wm with states := setActive wm.states i false } := by
                simp [deactivateCurrent, hcur]
              have hjj : findStateIdx (setActive wm.states i false) target =
                  some j := by
                rw [findStateIdx_setActive]
                exact hjo
              have hbody : transTryBody wm target 0 =
                  (applyImmediate { wm with states := setActive wm.states i false }
                    ((currentName wm).getD "none") target, none) := by
                unfold transTryBody
                rw [hfe]
                simp [hc, hdea]
              have happ : (applyImmediate
                    { wm with states := setActive wm.states i false }
                    ((currentName wm).getD "none") target).states =
                  setActive (setActive wm.states i false) j true := by
                unfold applyImmediate
                simp [hjj, notifyApplied, saveState]
              have hfin : (transitionTo wm target 0).1.states =
                  setActive (setActive wm.states i false) j true := by
                unfold transitionTo
                rw [hbody]
                exact happ
              unfold activeCount
              rw [hfin]
              exact countP_deactivate_activate wm.states i j hi hact hcount2
                (findStateIdx_lt _ _ _ hjo)

/-- Concrete instances of the amended C1 theorem on all three delay-0
paths: a successful transition, a false-guard failure whose rollback
attempt throws (no previous state), and a missing-edge failure whose
rollback restores the previous state. -/
theorem C1_witness :
    (activeCount wmAB = 1 ∧ activeCount (transitionTo wmAB "b" 0).1 = 1) ∧
    (activeCount wmC5 = 1 ∧
      activeCount (transitionTo wmC5 "in_progress" 0).1 = 1) ∧
    (activeCount wmAfterB = 1 ∧
      activeCount (transitionTo wmAfterB "nowhere" 0).1 = 1) := by
  refine ⟨⟨by decide, C1_single_active_preserved wmAB 0 "b" (by decide) rfl
      (by decide) (by decide) ?_ ?_⟩,
    ⟨by decide, C1_single_active_preserved wmC5 0 "in_progress" (by decide)
      rfl (by decide) (by decide) ?_ ?_⟩,
    ⟨by decide, C1_single_active_preserved wmAfterB 1 "nowhere" (by decide)
      rfl (by decide) (by decide) ?_ ?_⟩⟩
  · intro k hk
    rw [show wmAB.previousState = none from rfl] at hk
    cases hk
  · intro t ht hc
    decide
  · intro k hk
    rw [show wmC5.previousState = none from rfl] at hk
    cases hk
  · intro t ht hc
    rw [show findEdge wmC5.transitions (currentName wmC5) "in_progress" =
      some ⟨"initial", "in_progress", false⟩ from by decide] at ht
    injection ht with ht
    subst ht
    simp at hc
  · intro k hk
    rw [show wmAfterB.previousState = some 0 from rfl] at hk
    injection hk with hk
    subst hk
    decide
  · intro t ht hc
    rw [show findEdge wmAfterB.transitions (currentName wmAfterB) "nowhere" =
      none from by decide] at ht
    cases ht

/-- C1 counterexample: a reachable delayed `transitionTo` call starts with
exactly one active state and ends with zero — the claimed invariant fails
immediately after the call. -/
theorem C1_cex :
    activeCount wmAB = 1 ∧
    activeCount (transitionTo wmAB "b" 1).1 = 0 := by
  decide

/-- C2 (code behavior at the failing input): two rapid delayed schedules
to `completed` leave TWO armed runtime timers (the `timers` map entry is
overwritten with the second id, but the first `setTimeout` is never
cancelled), and after both expire the transition to `completed` has fired
twice, not once. -/
theorem C2_double_firing :
    (runOps wmSpec3
      [.transitionTo "completed" 500, .transitionTo "completed" 500]).pending.length = 2 ∧
    aget (runOps wmSpec3
      [.transitionTo "completed" 500, .transitionTo "completed" 500]).timers
      "completed" = some 1 ∧
    firingCount (runOps wmSpec3
      [.transitionTo "completed" 500, .transitionTo "completed" 500,
       .fireTimer 0, .fireTimer 1]) "completed" = 2 := by
  decide

/-- C4 (code behavior at the failing input): in the repository's own
error-handling test scenario, transitioning to the unresolvable name
`invalid_state` raises no error at all (nothing escapes, the error
handler is never invoked, so no rollback happens), and it leaves the
prior state `in_progress` still current but deactivated — zero states
are active. -/
theorem C4_unknown_state_silent :
    (transitionTo wmC4 "invalid_state" 0).2 = none ∧
    handledCount (transitionTo wmC4 "invalid_state" 0).1 = 0 ∧
    currentName (transitionTo wmC4 "invalid_state" 0).1 = some "in_progress" ∧
    activeCount (transitionTo wmC4 "invalid_state" 0).1 = 0 := by
  decide
